import Mathlib

/-!
# Scout Tracker — Progress Derivation Engine, shallow embedding

A verification development for the scout-tracker repository.  The four base
relations (roster, requirement catalog, meeting catalog, attendance ledger)
and the derivations computed from them by the UI pages and the PDF report
are embedded as executable Lean definitions, translated from:

* `scout_tracker/ui/pages/dashboard.py` (completion matrix, adventure
  rollups, rank eligibility),
* `scout_tracker/ui/pages/plan_meetings.py` (planning statistics),
* `scout_tracker/ui/pages/individual_reports.py` (per-scout progress),
* `scout_tracker/services/pdf_export.py` (per-scout progress and the
  missed-meetings comparison report).

Dates and names are modelled as strings compared for equality, matching the
CSV-backed DataFrames.  The comma-joined `Req_IDs_Covered` field is modelled
as the list of IDs it parses to (parsing itself is the I/O collaborator's
concern); a NaN field parses to the empty list.  Python dictionaries keyed
by meeting date are modelled as functions `String → Option _` built by a
left fold in which a later binding overwrites an earlier one, exactly the
insertion/assignment semantics of `dict`.
-/

namespace ScoutTracker

/-- A row of `Requirement_Key.csv`: columns `Req_ID`, `Adventure`,
`Requirement_Description`, `Required` (the optional `URL` column plays no
role in any derivation modelled here). -/
structure Requirement where
  reqId : String
  adventure : String
  description : String
  required : Bool
deriving DecidableEq, Repr

/-- A row of `Meetings.csv`: columns `Meeting_Date`, `Meeting_Title`,
`Req_IDs_Covered` (modelled post-parse as a list of IDs; NaN parses to
`[]`), `Optional` (defaulted to `False` by the loader). -/
structure Meeting where
  date : String
  title : String
  reqIdsCovered : List String
  optional : Bool
deriving DecidableEq, Repr

/-- A row of `Meeting_Attendance.csv`: columns `Meeting_Date`, `Scout_Name`. -/
structure AttendanceRecord where
  date : String
  scout : String
deriving DecidableEq, Repr

/-- The four base relations, as loaded by `load_roster`,
`load_requirement_key`, `load_meetings` and `load_attendance`. -/
structure TrackerState where
  roster : List String
  catalog : List Requirement
  meetings : List Meeting
  attendance : List AttendanceRecord
deriving Repr

/-- The catalog's requirement IDs, `requirement_key["Req_ID"].tolist()`,
used as the columns of the master tracker (dashboard.py line 30). -/
def reqIds (catalog : List Requirement) : List String :=
  catalog.map Requirement.reqId

/-- The `meeting_req_lookup` dictionary (dashboard.py lines 36-39):
`Meeting_Date -> Req_IDs_Covered`, built by one pass over the meetings;
assigning to an existing key overwrites it, so the last meeting with a
given date wins. -/
def buildLookup (ms : List Meeting) : String → Option (List String) :=
  ms.foldl (fun acc m => fun d => if d = m.date then some m.reqIdsCovered else acc d)
    (fun _ => none)

/-- One iteration of the attendance loop (dashboard.py lines 42-50): if the
record's scout is in the tracker's index and its date is a key of
`meeting_req_lookup`, set `master_tracker.at[scout, req] = True` for every
covered requirement ID that is among the tracker's columns; otherwise the
record is skipped and the tracker is unchanged. -/
def markAttendance (scouts rids : List String) (lookup : String → Option (List String))
    (m : String → String → Bool) (rec : AttendanceRecord) : String → String → Bool :=
  if scouts.contains rec.scout then
    match lookup rec.date with
    | some covered => fun s r => m s r || (s == rec.scout && covered.contains r && rids.contains r)
    | none => m
  else m

/-- The `master_tracker` DataFrame: an index (rows), columns, and the
boolean entries. -/
structure CompletionMatrix where
  index : List String
  columns : List String
  val : String → String → Bool

/-- The completion matrix build, `BuildCompletionMatrix` (dashboard.py lines 28-50, identically
plan_meetings.py lines 27-49): a DataFrame indexed by the roster scouts with
the catalog requirement IDs as columns, initialized all-`False`, then updated
by one pass over the attendance ledger. -/
def buildCompletionMatrix (st : TrackerState) : CompletionMatrix :=
  { index := st.roster
    columns := reqIds st.catalog
    val := st.attendance.foldl
      (markAttendance st.roster (reqIds st.catalog) (buildLookup st.meetings))
      (fun _ _ => false) }

/-! ## Per-scout derivations (individual_reports.py, pdf_export.py) -/

/-- Auxiliary for `unique`: deduplicate keeping the first occurrence of each
element, tracking what has been seen so far. -/
def uniqueAux : List String → List String → List String
  | _, [] => []
  | seen, a :: l => if a ∈ seen then uniqueAux seen l else a :: uniqueAux (a :: seen) l

/-- A Python `set` built by inserting the elements of a list in order,
listed with each element once (first insertion wins; only membership is
ever relied upon). -/
def unique (l : List String) : List String :=
  uniqueAux [] l

/-- One iteration of the per-scout attendance loop
(individual_reports.py lines 58-77): if the record's date is a key of
`meeting_req_lookup`, set `scout_progress[req] = True` for each covered
requirement ID that is a key of `scout_progress` (the catalog IDs). -/
def markScoutDate (rids : List String) (lookup : String → Option (List String))
    (p : String → Bool) (d : String) : String → Bool :=
  match lookup d with
  | some covered => fun r => p r || (covered.contains r && rids.contains r)
  | none => p

/-- The `scout_progress` dictionary of individual_reports.py (lines 36-77):
keys are the catalog requirement IDs, all initially `False`; one pass over
the rows of the attendance ledger filtered to the selected scout marks the
covered requirements.  Modelled as the characteristic function of the
dictionary with `.get(_, False)` access. -/
def scoutProgress (st : TrackerState) (scout : String) : String → Bool :=
  ((st.attendance.filter (fun rec => rec.scout == scout)).map AttendanceRecord.date).foldl
    (markScoutDate (reqIds st.catalog) (buildLookup st.meetings)) (fun _ => false)

/-- The set `meetings_attended_dates = set(scout_attendance["Meeting_Date"].tolist())`
(pdf_export.py lines 716-717). -/
def scoutAttendedDates (attendance : List AttendanceRecord) (scout : String) : List String :=
  unique ((attendance.filter (fun rec => rec.scout == scout)).map AttendanceRecord.date)

/-- The `scout_progress` dictionary of pdf_export.py (lines 692-725): same
marking loop as `scoutProgress`, but iterating the *set* of attended dates
rather than the raw ledger rows. -/
def scoutProgressPdf (st : TrackerState) (scout : String) : String → Bool :=
  (scoutAttendedDates st.attendance scout).foldl
    (markScoutDate (reqIds st.catalog) (buildLookup st.meetings)) (fun _ => false)

/-! ## Adventure rollups and rank eligibility (dashboard.py lines 56-105) -/

/-- The list `requirement_key[requirement_key["Adventure"] == adventure]["Req_ID"].tolist()`
(dashboard.py line 73): all requirement IDs of one adventure. -/
def adventureReqIds (catalog : List Requirement) (adv : String) : List String :=
  (catalog.filter (fun q => q.adventure == adv)).map Requirement.reqId

/-- Adventure rollup for one scout (dashboard.py lines 73-76):
`(completed, total, percentage)` with `completed` the column-sum of the
scout's row over the adventure's requirement IDs, and
`percentage = completed / total * 100` guarded to `0` when `total == 0`. -/
def adventureProgress (mat : String → String → Bool) (catalog : List Requirement)
    (scout adv : String) : Nat × Nat × ℚ :=
  let rs := adventureReqIds catalog adv
  let completed := rs.countP (fun r => mat scout r)
  let total := rs.length
  (completed, total, if total > 0 then (completed : ℚ) / (total : ℚ) * 100 else 0)

/-- The array `requirement_key[requirement_key["Required"] == True]["Adventure"].unique()`
(dashboard.py line 59): the adventures having at least one `Required=True`
requirement, deduplicated. -/
def requiredAdventures (catalog : List Requirement) : List String :=
  unique ((catalog.filter Requirement.required).map Requirement.adventure)

/-- The array `requirement_key[requirement_key["Required"] == False]["Adventure"].unique()`
(dashboard.py line 60). -/
def electiveAdventures (catalog : List Requirement) : List String :=
  unique ((catalog.filter (fun q => !q.required)).map Requirement.adventure)

/-- The `all_required_complete` flag (dashboard.py lines 70-79): starts
`True`; the loop over the required adventures clears it whenever a rollup
percentage is below 100. -/
def allRequiredComplete (mat : String → String → Bool) (catalog : List Requirement)
    (scout : String) : Bool :=
  (requiredAdventures catalog).foldl
    (fun flag adv =>
      if (adventureProgress mat catalog scout adv).2.2 < 100 then false else flag)
    true

/-- The `completed_electives` counter (dashboard.py lines 85-94): the loop
over the elective adventures increments it on each rollup at exactly 100. -/
def completedElectives (mat : String → String → Bool) (catalog : List Requirement)
    (scout : String) : Nat :=
  (electiveAdventures catalog).foldl
    (fun n adv =>
      if (adventureProgress mat catalog scout adv).2.2 = 100 then n + 1 else n)
    0

/-- The rank flag `lion_rank_earned = all_required_complete and completed_electives >= 2`
(dashboard.py line 99); the minimum elective count is the hard-coded domain
constant 2. -/
def lionRankEarned (mat : String → String → Bool) (catalog : List Requirement)
    (scout : String) : Bool :=
  allRequiredComplete mat catalog scout && decide (completedElectives mat catalog scout ≥ 2)

/-! ## Planning statistics (plan_meetings.py lines 57-78) -/

/-- The count `completed_count = master_tracker[req_id].sum()` (plan_meetings.py
line 63): the column-sum of booleans over the roster index. -/
def completedCount (mat : String → String → Bool) (scouts : List String) (rid : String) : Nat :=
  scouts.countP (fun s => mat s rid)

/-- The ratio `completion_percentage` (plan_meetings.py line 65):
`completed_count / total_scouts * 100`, guarded to `0` when the roster is
empty. -/
def denCoveragePct (mat : String → String → Bool) (scouts : List String) (rid : String) : ℚ :=
  if scouts.length > 0 then ((completedCount mat scouts rid : ℚ) / (scouts.length : ℚ)) * 100
  else 0

/-- The list `scouts_missing` of scouts without the requirement
(plan_meetings.py line 68). -/
def scoutsMissing (mat : String → String → Bool) (scouts : List String) (rid : String) :
    List String :=
  scouts.filter (fun s => !(mat s rid))

/-- The scouts counted by `completed_count`: those whose entry for the
requirement is `True` (the complement of `scouts_missing`). -/
def scoutsCompleted (mat : String → String → Bool) (scouts : List String) (rid : String) :
    List String :=
  scouts.filter (fun s => mat s rid)

/-! ## Missed-meetings comparison report (pdf_export.py lines 687-856) -/

/-- The `meeting_details` dictionary (pdf_export.py lines 697-710), keyed by
meeting date; like every date-keyed dictionary here, a later meeting with
the same date overwrites an earlier one.  Its `title`/`req_ids`/`optional`
values are the fields of the stored meeting. -/
def findLastMeeting (ms : List Meeting) : String → Option Meeting :=
  ms.foldl (fun acc m => fun d => if d = m.date then some m else acc d) (fun _ => none)

/-- The set `required_meeting_dates` (pdf_export.py lines 698, 712-713):
dates of non-optional meetings. -/
def requiredMeetingDates (ms : List Meeting) : List String :=
  unique ((ms.filter (fun m => !m.optional)).map Meeting.date)

/-- Lexicographic order on character lists by code point, the order Python
sorts date strings in. -/
def charListLe : List Char → List Char → Bool
  | [], _ => true
  | _ :: _, [] => false
  | a :: as, b :: bs =>
    if a.val < b.val then true
    else if b.val < a.val then false
    else charListLe as bs

/-- Lexicographic string comparison. -/
def strLe (a b : String) : Bool :=
  charListLe a.toList b.toList

/-- Insert into a sorted list, keeping earlier equal elements first. -/
def insertSorted (le : String → String → Bool) (a : String) : List String → List String
  | [] => [a]
  | b :: l => if le a b then a :: b :: l else b :: insertSorted le a l

/-- A stable sort (insertion sort), modelling Python's `sorted`. -/
def sortDates (le : String → String → Bool) : List String → List String
  | [] => []
  | a :: l => insertSorted le a (sortDates le l)

/-- The sorted set difference `sorted(required_meeting_dates - meetings_attended_dates)`
(pdf_export.py lines 813, 816). -/
def missedMeetingDates (st : TrackerState) (scout : String) : List String :=
  sortDates strLe
    ((requiredMeetingDates st.meetings).filter
      (fun d => !(scoutAttendedDates st.attendance scout).contains d))

/-- One entry of a missed meeting's `reqs_covered` list (pdf_export.py
lines 827-834); the `adventure`/`description`/`url` columns copied there are
presentation data with no bearing on the properties below. -/
structure CoveredReqInfo where
  reqId : String
  required : Bool
  completedElsewhere : Bool
deriving DecidableEq, Repr

/-- The `reqs_covered` list of one missed meeting (pdf_export.py lines
822-834): each truthy (non-blank) covered ID found in the catalog
contributes an entry, flagged `completed_elsewhere = scout_progress.get(id, False)`. -/
def reqsCoveredAt (catalog : List Requirement) (progress : String → Bool)
    (covered : List String) : List CoveredReqInfo :=
  covered.filterMap (fun rid =>
    if rid = "" then none
    else
      match catalog.find? (fun q => q.reqId == rid) with
      | some q => some ⟨rid, q.required, progress rid⟩
      | none => none)

/-- One entry of `missed_meetings_info` (pdf_export.py lines 837-841). -/
structure MissedMeeting where
  date : String
  title : String
  requirements : List CoveredReqInfo
deriving DecidableEq, Repr

/-- The report list `missed_meetings_info` (pdf_export.py lines 813-841): for each missed
non-optional date in sorted order, look the meeting up in
`meeting_details`, collect its catalog-known covered requirements, and
append an entry only when that list is non-empty. -/
def missedMeetingsInfo (st : TrackerState) (scout : String) : List MissedMeeting :=
  let progress := scoutProgressPdf st scout
  (missedMeetingDates st scout).filterMap (fun d =>
    match findLastMeeting st.meetings d with
    | some m =>
        let reqs := reqsCoveredAt st.catalog progress m.reqIdsCovered
        if reqs.isEmpty then none else some ⟨d, m.title, reqs⟩
    | none => none)

/-! ## Scenario operations and concrete fixtures -/

/-- Removing a scout's attendance record for one meeting date.  The
attendance page (attendance.py lines 124-136) re-saves the date's rows from
the edited selection; deselecting one scout leaves the ledger without the
`(date, scout)` row(s), which is what this filter computes. -/
def removeAttendance (st : TrackerState) (d s : String) : TrackerState :=
  { st with attendance :=
      st.attendance.filter (fun rec => !(rec.date == d && rec.scout == s)) }

/-- A two-scout den: Ann attended the one meeting, Bob did not. -/
def exC1 : TrackerState :=
  { roster := ["Ann", "Bob"]
    catalog := [⟨"R1", "A", "req one", true⟩, ⟨"R2", "A", "req two", true⟩]
    meetings := [⟨"d1", "m1", ["R1"], false⟩]
    attendance := [⟨"d1", "Ann"⟩] }

/-- The multi-source scenario: S attended M1 (covers R1, R2) and M2
(covers R2, R3). -/
def exC2 : TrackerState :=
  { roster := ["S"]
    catalog := [⟨"R1", "A", "r", true⟩, ⟨"R2", "A", "r", true⟩, ⟨"R3", "B", "r", false⟩]
    meetings := [⟨"d1", "M1", ["R1", "R2"], false⟩, ⟨"d2", "M2", ["R2", "R3"], false⟩]
    attendance := [⟨"d1", "S"⟩, ⟨"d2", "S"⟩] }

/-- A den with two required adventures and three electives, and a scout who
completed everything except adventure E3. -/
def exC3 : TrackerState :=
  { roster := ["Sam"]
    catalog := [⟨"A1.1", "A1", "r", true⟩, ⟨"A1.2", "A1", "r", true⟩,
                ⟨"A2.1", "A2", "r", true⟩,
                ⟨"E1.1", "E1", "r", false⟩, ⟨"E2.1", "E2", "r", false⟩,
                ⟨"E3.1", "E3", "r", false⟩]
    meetings := [⟨"d1", "m", ["A1.1", "A1.2", "A2.1", "E1.1", "E2.1"], false⟩]
    attendance := [⟨"d1", "Sam"⟩] }

/-- Sam missed the meeting covering R1 but earned R1 at another meeting:
the missed-meeting report still lists R1 (flagged completed elsewhere). -/
def exC5 : TrackerState :=
  { roster := ["Sam"]
    catalog := [⟨"R1", "A", "r", true⟩]
    meetings := [⟨"d1", "m1", ["R1"], false⟩, ⟨"d2", "m2", ["R1"], false⟩]
    attendance := [⟨"d2", "Sam"⟩] }

/-- A one-scout, one-meeting den used to exercise matrix monotonicity. -/
def exC6 : TrackerState :=
  { roster := ["Ann"]
    catalog := [⟨"R1", "A", "r", true⟩]
    meetings := [⟨"d1", "m1", ["R1"], false⟩]
    attendance := [⟨"d1", "Ann"⟩] }

/-- Four scouts, one of whom completed the lone required requirement. -/
def exC7 : TrackerState :=
  { roster := ["Ann", "Bob", "Cat", "Dan"]
    catalog := [⟨"R1", "A", "r", true⟩]
    meetings := [⟨"d1", "m1", ["R1"], false⟩]
    attendance := [⟨"d1", "Ann"⟩] }

/-- A state with dangling references: attendance for an unknown scout and
an unknown date, and a meeting covering an unknown requirement ID. -/
def exC8 : TrackerState :=
  { roster := ["Ann"]
    catalog := [⟨"R1", "A", "r", true⟩]
    meetings := [⟨"d1", "m1", ["R1", "Rx"], false⟩]
    attendance := [⟨"d1", "Ann"⟩, ⟨"d1", "Zed"⟩, ⟨"d9", "Ann"⟩] }

/-- Two meetings sharing the date "d": the catalog-collaborator
precondition is violated. -/
def exC9 : TrackerState :=
  { roster := ["Ann"]
    catalog := [⟨"R1", "A", "r", true⟩, ⟨"R2", "A", "r", true⟩]
    meetings := [⟨"d", "m1", ["R1"], false⟩, ⟨"d", "m2", ["R2"], false⟩]
    attendance := [⟨"d", "Ann"⟩] }

/-- A small den for the per-scout/den-wide agreement check. -/
def exC10 : TrackerState :=
  { roster := ["Ann", "Bob"]
    catalog := [⟨"R1", "A", "r", true⟩, ⟨"R2", "B", "r", false⟩]
    meetings := [⟨"d1", "m1", ["R1"], false⟩, ⟨"d2", "m2", ["R2"], true⟩]
    attendance := [⟨"d1", "Ann"⟩, ⟨"d2", "Ann"⟩] }

/-! ## Basic lemmas: set membership, dictionary lookups -/

theorem mem_uniqueAux {a : String} : ∀ {l seen : List String},
    a ∈ uniqueAux seen l ↔ a ∈ l ∧ a ∉ seen := by
  intro l
  induction l with
  | nil => intro seen; simp [uniqueAux]
  | cons b l ih =>
    intro seen
    by_cases hb : b ∈ seen
    · rw [uniqueAux, if_pos hb, ih, List.mem_cons]
      constructor
      · rintro ⟨h1, h2⟩; exact ⟨Or.inr h1, h2⟩
      · rintro ⟨rfl | h1, h2⟩
        · exact absurd hb h2
        · exact ⟨h1, h2⟩
    · rw [uniqueAux, if_neg hb, List.mem_cons, ih, List.mem_cons, List.mem_cons]
      constructor
      · rintro (rfl | ⟨h1, h2⟩)
        · exact ⟨Or.inl rfl, hb⟩
        · exact ⟨Or.inr h1, fun hs => h2 (Or.inr hs)⟩
      · rintro ⟨rfl | h1, h2⟩
        · exact Or.inl rfl
        · by_cases hab : a = b
          · exact Or.inl hab
          · refine Or.inr ⟨h1, fun hs => ?_⟩
            rcases hs with rfl | hs
            · exact hab rfl
            · exact h2 hs

theorem mem_unique {a : String} {l : List String} : a ∈ unique l ↔ a ∈ l := by
  rw [unique, mem_uniqueAux]
  simp

/-- Folding further date-keyed assignments whose keys all differ from `d`
leaves the value at `d` unchanged. -/
theorem foldl_findLast_preserve (l : List Meeting) (acc : String → Option Meeting) (d : String)
    (h : ∀ m ∈ l, m.date ≠ d) :
    (l.foldl (fun acc m => fun x => if x = m.date then some m else acc x) acc) d = acc d := by
  induction l generalizing acc with
  | nil => rfl
  | cons m l ih =>
    rw [List.foldl_cons, ih _ (fun m' hm' => h m' (List.mem_cons_of_mem _ hm'))]
    have hd : d ≠ m.date := fun hd => h m (List.mem_cons_self ..) hd.symm
    simp [hd]

theorem findLastMeeting_append (ms : List Meeting) (m : Meeting) (d : String) :
    findLastMeeting (ms ++ [m]) d = if d = m.date then some m else findLastMeeting ms d := by
  simp [findLastMeeting, List.foldl_append]

theorem findLastMeeting_eq_none (ms : List Meeting) (d : String)
    (h : ∀ m ∈ ms, m.date ≠ d) : findLastMeeting ms d = none :=
  foldl_findLast_preserve ms _ d h

theorem findLastMeeting_mem : ∀ {ms : List Meeting} {d : String} {m : Meeting},
    findLastMeeting ms d = some m → m ∈ ms ∧ m.date = d := by
  intro ms
  induction ms using List.reverseRecOn with
  | nil => intro d m h; simp [findLastMeeting] at h
  | append_singleton ms m' ih =>
    intro d m h
    rw [findLastMeeting_append] at h
    by_cases hd : d = m'.date
    · rw [if_pos hd] at h
      obtain rfl : m' = m := Option.some_injective _ h
      exact ⟨List.mem_append.mpr (Or.inr (List.mem_singleton.mpr rfl)), hd.symm⟩
    · rw [if_neg hd] at h
      obtain ⟨h1, h2⟩ := ih h
      exact ⟨List.mem_append.mpr (Or.inl h1), h2⟩

/-- Last write wins in `meeting_details`: the binding at a date is the last
meeting with that date. -/
theorem findLastMeeting_last (l1 l2 : List Meeting) (m : Meeting)
    (h : ∀ m' ∈ l2, m'.date ≠ m.date) :
    findLastMeeting (l1 ++ m :: l2) m.date = some m := by
  unfold findLastMeeting
  rw [show l1 ++ m :: l2 = (l1 ++ [m]) ++ l2 by simp, List.foldl_append]
  rw [foldl_findLast_preserve l2 _ m.date h]
  simp [List.foldl_append]

theorem findLastMeeting_of_nodup {ms : List Meeting} {m : Meeting}
    (hnodup : (ms.map Meeting.date).Nodup) (hm : m ∈ ms) :
    findLastMeeting ms m.date = some m := by
  obtain ⟨l1, l2, rfl⟩ := List.append_of_mem hm
  refine findLastMeeting_last l1 l2 m (fun m' hm' hdate => ?_)
  rw [List.map_append, List.map_cons, List.nodup_append] at hnodup
  exact (List.nodup_cons.mp hnodup.2.1).1 (hdate ▸ List.mem_map_of_mem Meeting.date hm')

/-- With distinct meeting dates, a meeting is determined by its date. -/
theorem meeting_eq_of_date_eq {ms : List Meeting} {m m' : Meeting}
    (hnodup : (ms.map Meeting.date).Nodup) (hm : m ∈ ms) (hm' : m' ∈ ms)
    (hd : m.date = m'.date) : m = m' := by
  have h1 := findLastMeeting_of_nodup hnodup hm
  have h2 := findLastMeeting_of_nodup hnodup hm'
  rw [hd, h2] at h1
  exact (Option.some_injective _ h1).symm

/-- Both `meeting_req_lookup` and `meeting_details` are built by the same
last-write-wins pass; the former stores the covered-ID list of the meeting
the latter stores. -/
theorem buildLookup_eq_findLastMeeting (ms : List Meeting) (d : String) :
    buildLookup ms d = (findLastMeeting ms d).map Meeting.reqIdsCovered := by
  induction ms using List.reverseRecOn with
  | nil => rfl
  | append_singleton ms m ih =>
    rw [findLastMeeting_append]
    have : buildLookup (ms ++ [m]) d =
        if d = m.date then some m.reqIdsCovered else buildLookup ms d := by
      simp [buildLookup, List.foldl_append]
    rw [this]
    by_cases hd : d = m.date <;> simp [hd, ih]

theorem buildLookup_some {ms : List Meeting} {d : String} {cov : List String}
    (h : buildLookup ms d = some cov) :
    ∃ m ∈ ms, m.date = d ∧ m.reqIdsCovered = cov := by
  rw [buildLookup_eq_findLastMeeting] at h
  rcases hfl : findLastMeeting ms d with _ | m
  · rw [hfl] at h; simp at h
  · rw [hfl] at h
    obtain ⟨h1, h2⟩ := findLastMeeting_mem hfl
    exact ⟨m, h1, h2, by simpa using h⟩

theorem buildLookup_of_nodup {ms : List Meeting} {m : Meeting}
    (hnodup : (ms.map Meeting.date).Nodup) (hm : m ∈ ms) :
    buildLookup ms m.date = some m.reqIdsCovered := by
  rw [buildLookup_eq_findLastMeeting, findLastMeeting_of_nodup hnodup hm]
  rfl

theorem buildLookup_eq_none {ms : List Meeting} {d : String}
    (h : ∀ m ∈ ms, m.date ≠ d) : buildLookup ms d = none := by
  rw [buildLookup_eq_findLastMeeting, findLastMeeting_eq_none ms d h]
  rfl

theorem buildLookup_last (l1 l2 : List Meeting) (m : Meeting)
    (h : ∀ m' ∈ l2, m'.date ≠ m.date) :
    buildLookup (l1 ++ m :: l2) m.date = some m.reqIdsCovered := by
  rw [buildLookup_eq_findLastMeeting, findLastMeeting_last l1 l2 m h]
  rfl

/-! ## Characterizations of the attendance folds -/

/-- One `markAttendance` step, characterized: an entry is true afterwards
iff it was true before, or the record names this scout (who is in the
roster), its date resolves in the lookup, and the requirement is among the
covered IDs and the known columns. -/
theorem markAttendance_true_iff (scouts rids : List String)
    (lookup : String → Option (List String)) (m : String → String → Bool)
    (rec : AttendanceRecord) (s r : String) :
    (markAttendance scouts rids lookup m rec) s r = true ↔
      m s r = true ∨ (rec.scout = s ∧ s ∈ scouts ∧
        ∃ cov, lookup rec.date = some cov ∧ r ∈ cov ∧ r ∈ rids) := by
  unfold markAttendance
  by_cases hc : scouts.contains rec.scout
  · rw [if_pos hc]
    rcases hl : lookup rec.date with _ | covered
    · simp only []
      constructor
      · exact Or.inl
      · rintro (h | ⟨_, _, cov, hcov, _⟩)
        · exact h
        · exact absurd hcov (by simp)
    · simp only [Bool.or_eq_true, Bool.and_eq_true, beq_iff_eq]
      constructor
      · rintro (h | ⟨⟨rfl, h2⟩, h3⟩)
        · exact Or.inl h
        · refine Or.inr ⟨rfl, by simpa using hc, covered, rfl, by simpa using h2, by simpa using h3⟩
      · rintro (h | ⟨rfl, _, cov, hcov, h2, h3⟩)
        · exact Or.inl h
        · obtain rfl : covered = cov := by injection hcov
          exact Or.inr ⟨⟨rfl, by simpa using h2⟩, by simpa using h3⟩
  · rw [if_neg hc]
    constructor
    · exact Or.inl
    · rintro (h | ⟨rfl, hs, _⟩)
      · exact h
      · exact absurd (by simpa using hs) hc

theorem foldl_markAttendance_true_iff (scouts rids : List String)
    (lookup : String → Option (List String)) :
    ∀ (A : List AttendanceRecord) (m : String → String → Bool) (s r : String),
    (A.foldl (markAttendance scouts rids lookup) m) s r = true ↔
      m s r = true ∨ ∃ rec ∈ A, rec.scout = s ∧ s ∈ scouts ∧
        ∃ cov, lookup rec.date = some cov ∧ r ∈ cov ∧ r ∈ rids := by
  intro A
  induction A with
  | nil => intro m s r; simp
  | cons rec A ih =>
    intro m s r
    rw [List.foldl_cons, ih, markAttendance_true_iff, List.exists_mem_cons_iff]
    exact or_assoc

/-- The completion matrix, characterized: an entry is true iff some
attendance record for this roster scout resolves in the date lookup to a
covered list containing this catalog requirement ID. -/
theorem matrix_true_iff (st : TrackerState) (s r : String) :
    (buildCompletionMatrix st).val s r = true ↔
      ∃ rec ∈ st.attendance, rec.scout = s ∧ s ∈ st.roster ∧
        ∃ cov, buildLookup st.meetings rec.date = some cov ∧ r ∈ cov ∧
          r ∈ reqIds st.catalog := by
  rw [show (buildCompletionMatrix st).val =
      st.attendance.foldl
        (markAttendance st.roster (reqIds st.catalog) (buildLookup st.meetings))
        (fun _ _ => false) from rfl,
    foldl_markAttendance_true_iff]
  simp

/-- One `markScoutDate` step, characterized. -/
theorem markScoutDate_true_iff (rids : List String)
    (lookup : String → Option (List String)) (p : String → Bool) (d r : String) :
    (markScoutDate rids lookup p d) r = true ↔
      p r = true ∨ ∃ cov, lookup d = some cov ∧ r ∈ cov ∧ r ∈ rids := by
  unfold markScoutDate
  rcases hl : lookup d with _ | covered
  · constructor
    · exact Or.inl
    · rintro (h | ⟨cov, hcov, _⟩)
      · exact h
      · exact absurd hcov (by simp)
  · simp only [Bool.or_eq_true, Bool.and_eq_true]
    constructor
    · rintro (h | ⟨h2, h3⟩)
      · exact Or.inl h
      · exact Or.inr ⟨covered, rfl, by simpa using h2, by simpa using h3⟩
    · rintro (h | ⟨cov, hcov, h2, h3⟩)
      · exact Or.inl h
      · obtain rfl : covered = cov := by injection hcov
        exact Or.inr ⟨by simpa using h2, by simpa using h3⟩

theorem foldl_markScoutDate_true_iff (rids : List String)
    (lookup : String → Option (List String)) :
    ∀ (ds : List String) (p : String → Bool) (r : String),
    (ds.foldl (markScoutDate rids lookup) p) r = true ↔
      p r = true ∨ ∃ d ∈ ds, ∃ cov, lookup d = some cov ∧ r ∈ cov ∧ r ∈ rids := by
  intro ds
  induction ds with
  | nil => intro p r; simp
  | cons d ds ih =>
    intro p r
    rw [List.foldl_cons, ih, markScoutDate_true_iff, List.exists_mem_cons_iff]
    exact or_assoc

/-- The individual-report per-scout progress, characterized: identical
condition to a matrix entry except that the roster is never consulted. -/
theorem scoutProgress_true_iff (st : TrackerState) (s r : String) :
    scoutProgress st s r = true ↔
      ∃ rec ∈ st.attendance, rec.scout = s ∧
        ∃ cov, buildLookup st.meetings rec.date = some cov ∧ r ∈ cov ∧
          r ∈ reqIds st.catalog := by
  rw [scoutProgress, foldl_markScoutDate_true_iff]
  simp only [Bool.false_eq_true, false_or, List.mem_map, List.mem_filter, beq_iff_eq]
  constructor
  · rintro ⟨d, ⟨rec, ⟨hrec, rfl⟩, rfl⟩, hcov⟩
    exact ⟨rec, hrec, rfl, hcov⟩
  · rintro ⟨rec, hrec, rfl, hcov⟩
    exact ⟨rec.date, ⟨rec, ⟨hrec, rfl⟩, rfl⟩, hcov⟩

/-- Dates in `meetings_attended_dates`, characterized. -/
theorem mem_scoutAttendedDates {A : List AttendanceRecord} {s d : String} :
    d ∈ scoutAttendedDates A s ↔ ∃ rec ∈ A, rec.scout = s ∧ rec.date = d := by
  rw [scoutAttendedDates, mem_unique]
  simp only [List.mem_map, List.mem_filter, beq_iff_eq]
  constructor
  · rintro ⟨rec, ⟨hrec, hs⟩, rfl⟩
    exact ⟨rec, hrec, hs, rfl⟩
  · rintro ⟨rec, hrec, hs, rfl⟩
    exact ⟨rec, ⟨hrec, hs⟩, rfl⟩

/-- The PDF-report per-scout progress, characterized: the same condition as
`scoutProgress` (iterating the set of dates instead of the ledger rows
changes nothing). -/
theorem scoutProgressPdf_true_iff (st : TrackerState) (s r : String) :
    scoutProgressPdf st s r = true ↔
      ∃ rec ∈ st.attendance, rec.scout = s ∧
        ∃ cov, buildLookup st.meetings rec.date = some cov ∧ r ∈ cov ∧
          r ∈ reqIds st.catalog := by
  rw [scoutProgressPdf, foldl_markScoutDate_true_iff]
  simp only [Bool.false_eq_true, false_or]
  constructor
  · rintro ⟨d, hd, hcov⟩
    obtain ⟨rec, hrec, hs, rfl⟩ := mem_scoutAttendedDates.mp hd
    exact ⟨rec, hrec, hs, hcov⟩
  · rintro ⟨rec, hrec, hs, hcov⟩
    exact ⟨rec.date, mem_scoutAttendedDates.mpr ⟨rec, hrec, hs, rfl⟩, hcov⟩

/-! ## Rollup and counting lemmas -/

/-- A boolean flag that a loop can only clear ends up true iff it started
true and no iteration cleared it. -/
theorem foldl_clearFlag_eq_true {α : Type} (p : α → Prop) [DecidablePred p] (l : List α)
    (b : Bool) :
    (l.foldl (fun flag a => if p a then false else flag) b) = true ↔
      b = true ∧ ∀ a ∈ l, ¬ p a := by
  induction l generalizing b with
  | nil => simp
  | cons a l ih =>
    rw [List.foldl_cons, ih]
    by_cases h : p a <;> simp [h, List.forall_mem_cons]

/-- A counter that a loop conditionally increments counts the elements
satisfying the condition. -/
theorem foldl_countIf_eq {α : Type} (p : α → Prop) [DecidablePred p] (l : List α) (n : Nat) :
    (l.foldl (fun n a => if p a then n + 1 else n) n) = n + l.countP (fun a => decide (p a)) := by
  induction l generalizing n with
  | nil => simp
  | cons a l ih =>
    rw [List.foldl_cons, ih, List.countP_cons]
    by_cases h : p a <;> simp [h] <;> omega

/-- The three components of `adventureProgress`, unfolded. -/
theorem adventureProgress_eq (mat : String → String → Bool) (catalog : List Requirement)
    (scout adv : String) :
    adventureProgress mat catalog scout adv =
      ((adventureReqIds catalog adv).countP (fun r => mat scout r),
       (adventureReqIds catalog adv).length,
       if (adventureReqIds catalog adv).length > 0
       then ((adventureReqIds catalog adv).countP (fun r => mat scout r) : ℚ) /
            ((adventureReqIds catalog adv).length : ℚ) * 100
       else 0) := rfl

/-- An adventure rollup percentage never exceeds 100. -/
theorem adventureProgress_pct_le (mat : String → String → Bool) (catalog : List Requirement)
    (scout adv : String) : (adventureProgress mat catalog scout adv).2.2 ≤ 100 := by
  rw [adventureProgress_eq]
  simp only []
  by_cases h : (adventureReqIds catalog adv).length > 0
  · rw [if_pos h]
    have hc : ((adventureReqIds catalog adv).countP (fun r => mat scout r) : ℚ) ≤
        ((adventureReqIds catalog adv).length : ℚ) := by
      exact_mod_cast List.countP_le_length _
    have ht : (0 : ℚ) < ((adventureReqIds catalog adv).length : ℚ) := by exact_mod_cast h
    calc ((adventureReqIds catalog adv).countP (fun r => mat scout r) : ℚ) /
          ((adventureReqIds catalog adv).length : ℚ) * 100
        ≤ 1 * 100 := by
          apply mul_le_mul_of_nonneg_right _ (by norm_num)
          exact (div_le_one ht).mpr hc
      _ = 100 := by norm_num
  · rw [if_neg h]; norm_num

/-- The rollup percentage is exactly 100 iff it is not below 100. -/
theorem adventureProgress_pct_eq_100_iff (mat : String → String → Bool)
    (catalog : List Requirement) (scout adv : String) :
    ¬ ((adventureProgress mat catalog scout adv).2.2 < 100) ↔
      (adventureProgress mat catalog scout adv).2.2 = 100 := by
  constructor
  · intro h
    exact le_antisymm (adventureProgress_pct_le mat catalog scout adv) (not_lt.mp h)
  · intro h
    rw [h]
    exact lt_irrefl 100

/-- Splitting a count between a predicate and its complement. -/
theorem countP_add_length_filter_not {α : Type} (l : List α) (p : α → Bool) :
    l.countP p + (l.filter (fun a => !p a)).length = l.length := by
  induction l with
  | nil => rfl
  | cons a l ih =>
    by_cases h : p a = true <;>
      simp only [List.countP_cons, List.filter_cons, h, Bool.not_true, Bool.not_false,
        if_true, if_false, List.length_cons, Bool.false_eq_true] <;>
      omega

/-! ## Missed-meetings lemmas -/

theorem mem_insertSorted {le : String → String → Bool} {a b : String} :
    ∀ {l : List String}, b ∈ insertSorted le a l ↔ b = a ∨ b ∈ l := by
  intro l
  induction l with
  | nil => simp [insertSorted]
  | cons c l ih =>
    rw [insertSorted]
    by_cases h : le a c
    · simp [h]
    · rw [if_neg h, List.mem_cons, ih, List.mem_cons]
      tauto

/-- Sorting does not change membership. -/
theorem mem_sortDates {le : String → String → Bool} {a : String} :
    ∀ {l : List String}, a ∈ sortDates le l ↔ a ∈ l := by
  intro l
  induction l with
  | nil => simp [sortDates]
  | cons b l ih =>
    rw [sortDates, mem_insertSorted, List.mem_cons, ih]

/-- Dates in `missed_meeting_dates`, characterized: dates of some
non-optional meeting that the scout has no attendance record for. -/
theorem mem_missedMeetingDates {st : TrackerState} {scout d : String} :
    d ∈ missedMeetingDates st scout ↔
      (∃ m ∈ st.meetings, m.optional = false ∧ m.date = d) ∧
        ¬ ∃ rec ∈ st.attendance, rec.scout = scout ∧ rec.date = d := by
  rw [missedMeetingDates, mem_sortDates, List.mem_filter, requiredMeetingDates, mem_unique]
  constructor
  · rintro ⟨h1, h2⟩
    obtain ⟨m, hm, rfl⟩ := List.mem_map.mp h1
    obtain ⟨hmem, hopt'⟩ := List.mem_filter.mp hm
    have hopt : m.optional = false := by simpa using hopt'
    refine ⟨⟨m, hmem, hopt, rfl⟩, fun hex => ?_⟩
    have hc : (scoutAttendedDates st.attendance scout).contains m.date = true := by
      simpa using mem_scoutAttendedDates.mpr hex
    rw [hc] at h2
    simp at h2
  · rintro ⟨⟨m, hm, hopt, rfl⟩, hnot⟩
    refine ⟨List.mem_map.mpr ⟨m, List.mem_filter.mpr ⟨hm, by simp [hopt]⟩, rfl⟩, ?_⟩
    have hno : m.date ∉ scoutAttendedDates st.attendance scout :=
      fun h => hnot (mem_scoutAttendedDates.mp h)
    cases hc : (scoutAttendedDates st.attendance scout).contains m.date
    · simp [hc]
    · exact absurd (by simpa using hc) hno

/-- Entries of `missed_meetings_info`, characterized in terms of the missed
dates and the `meeting_details` lookup. -/
theorem mem_missedMeetingsInfo {st : TrackerState} {scout : String} {mm : MissedMeeting} :
    mm ∈ missedMeetingsInfo st scout ↔
      ∃ d ∈ missedMeetingDates st scout, ∃ m, findLastMeeting st.meetings d = some m ∧
        reqsCoveredAt st.catalog (scoutProgressPdf st scout) m.reqIdsCovered ≠ [] ∧
        mm = ⟨d, m.title,
          reqsCoveredAt st.catalog (scoutProgressPdf st scout) m.reqIdsCovered⟩ := by
  rw [missedMeetingsInfo, List.mem_filterMap]
  constructor
  · rintro ⟨d, hd, hf⟩
    rcases hfl : findLastMeeting st.meetings d with _ | m
    · rw [hfl] at hf; cases hf
    · rw [hfl] at hf
      simp only [] at hf
      by_cases he :
          (reqsCoveredAt st.catalog (scoutProgressPdf st scout) m.reqIdsCovered).isEmpty
      · rw [if_pos he] at hf; cases hf
      · rw [if_neg he] at hf
        refine ⟨d, hd, m, hfl, fun hnil => he ?_, (Option.some_injective _ hf).symm⟩
        rw [hnil]; rfl
  · rintro ⟨d, hd, m, hfl, hne, rfl⟩
    refine ⟨d, hd, ?_⟩
    rw [hfl]
    simp only []
    rw [if_neg (fun he => hne (List.isEmpty_iff.mp he))]

/-- Entries of a missed meeting's `reqs_covered` list carry
`completed_elsewhere = scout_progress.get(req_id, False)`, and their ID is a
non-blank covered ID present in the catalog. -/
theorem mem_reqsCoveredAt {catalog : List Requirement} {progress : String → Bool}
    {covered : List String} {q : CoveredReqInfo}
    (hq : q ∈ reqsCoveredAt catalog progress covered) :
    q.completedElsewhere = progress q.reqId ∧ q.reqId ∈ covered ∧ q.reqId ≠ "" ∧
      ∃ qq ∈ catalog, qq.reqId = q.reqId ∧ qq.required = q.required := by
  rw [reqsCoveredAt, List.mem_filterMap] at hq
  obtain ⟨rid, hrid, hf⟩ := hq
  by_cases hb : rid = ""
  · rw [if_pos hb] at hf; cases hf
  · rw [if_neg hb] at hf
    rcases hfind : catalog.find? (fun qq => qq.reqId == rid) with _ | qq
    · rw [hfind] at hf; cases hf
    · rw [hfind] at hf
      obtain rfl : (⟨rid, qq.required, progress rid⟩ : CoveredReqInfo) = q :=
        Option.some_injective _ hf
      have hqq : qq.reqId = rid := by simpa using List.find?_some hfind
      exact ⟨rfl, hrid, hb, qq, List.mem_of_find?_eq_some hfind, hqq, rfl⟩

/-- If some non-blank covered ID is found in the catalog, the
`reqs_covered` list is non-empty. -/
theorem reqsCoveredAt_ne_nil {catalog : List Requirement} {progress : String → Bool}
    {covered : List String} {rid : String} (hrid : rid ∈ covered) (hb : rid ≠ "")
    {qq : Requirement} (hfind : catalog.find? (fun q => q.reqId == rid) = some qq) :
    reqsCoveredAt catalog progress covered ≠ [] := by
  intro hnil
  have : (⟨rid, qq.required, progress rid⟩ : CoveredReqInfo) ∈
      reqsCoveredAt catalog progress covered := by
    rw [reqsCoveredAt, List.mem_filterMap]
    exact ⟨rid, hrid, by rw [if_neg hb, hfind]⟩
  rw [hnil] at this
  cases this

/-! ## Claim theorems -/

/-- C1: for every scout `s` in the roster and requirement ID `r` in the
catalog (whose meeting dates are unique, the stated data-model key
constraint), the completion matrix has `Completion[s][r] = true` iff some
meeting covers `r` and the ledger holds `(m.Date, s)`; entries start false
and only catalog IDs earn credit. -/
theorem completionMatrix_iff_some_meeting (st : TrackerState) (s r : String)
    (hs : s ∈ st.roster) (hr : r ∈ reqIds st.catalog)
    (hdates : (st.meetings.map Meeting.date).Nodup) :
    (buildCompletionMatrix st).val s r = true ↔
      ∃ m ∈ st.meetings, r ∈ m.reqIdsCovered ∧
        (⟨m.date, s⟩ : AttendanceRecord) ∈ st.attendance := by
  rw [matrix_true_iff]
  constructor
  · rintro ⟨rec, hrec, hscout, _, cov, hcov, hrcov, _⟩
    obtain ⟨m, hm, hdate, hcoveq⟩ := buildLookup_some hcov
    refine ⟨m, hm, hcoveq ▸ hrcov, ?_⟩
    obtain ⟨rd, rs⟩ := rec
    obtain rfl : rs = s := hscout
    obtain rfl : m.date = rd := hdate
    exact hrec
  · rintro ⟨m, hm, hrcov, hatt⟩
    exact ⟨⟨m.date, s⟩, hatt, rfl, hs, m.reqIdsCovered, buildLookup_of_nodup hdates hm,
      hrcov, hr⟩

/-- Witness for C1 at a concrete den: Ann attended the meeting covering R1,
so her entry is true. -/
theorem completionMatrix_iff_some_meeting_witness :
    (buildCompletionMatrix exC1).val "Ann" "R1" = true :=
  (completionMatrix_iff_some_meeting exC1 "Ann" "R1" (by decide) (by decide)
    (by decide)).mpr (by decide)

/-- C6: adding an attendance record to the ledger and rebuilding never
turns an existing true entry false. -/
theorem addAttendance_monotone (st : TrackerState) (rec : AttendanceRecord) (s r : String)
    (h : (buildCompletionMatrix st).val s r = true) :
    (buildCompletionMatrix
      { st with attendance := st.attendance ++ [rec] }).val s r = true := by
  rw [matrix_true_iff] at h ⊢
  obtain ⟨rec', hrec', hrest⟩ := h
  exact ⟨rec', List.mem_append.mpr (Or.inl hrec'), hrest⟩

/-- Witness for C6: Ann's R1 entry survives appending an unrelated record. -/
theorem addAttendance_monotone_witness :
    (buildCompletionMatrix
      { exC6 with attendance := exC6.attendance ++ [⟨"d9", "Zed"⟩] }).val "Ann" "R1" = true :=
  addAttendance_monotone exC6 ⟨"d9", "Zed"⟩ "Ann" "R1" (by decide)

/-- C8: the matrix build is a total function whose rows are exactly the
roster and whose columns are exactly the catalog IDs; attendance records
naming an unknown scout or date leave the tracker untouched (skipped, no
row/column created), and entries outside roster × catalog are false, so
covered IDs absent from the catalog contribute nothing. -/
theorem buildMatrix_shape_and_skips (st : TrackerState) :
    (buildCompletionMatrix st).index = st.roster ∧
    (buildCompletionMatrix st).columns = reqIds st.catalog ∧
    (∀ (m : String → String → Bool) (rec : AttendanceRecord),
      (st.roster.contains rec.scout = false ∨ ∀ mt ∈ st.meetings, mt.date ≠ rec.date) →
      markAttendance st.roster (reqIds st.catalog) (buildLookup st.meetings) m rec = m) ∧
    (∀ s r, s ∉ st.roster → (buildCompletionMatrix st).val s r = false) ∧
    (∀ s r, r ∉ reqIds st.catalog → (buildCompletionMatrix st).val s r = false) := by
  refine ⟨rfl, rfl, ?_, ?_, ?_⟩
  · rintro m rec (hsc | hdate)
    · unfold markAttendance
      rw [if_neg (fun hc => by rw [hsc] at hc; cases hc)]
    · unfold markAttendance
      rw [buildLookup_eq_none hdate]
      split <;> rfl
  · intro s r hs
    cases hval : (buildCompletionMatrix st).val s r
    · rfl
    · obtain ⟨_, _, _, hmem, _⟩ := (matrix_true_iff st s r).mp hval
      exact absurd hmem hs
  · intro s r hr
    cases hval : (buildCompletionMatrix st).val s r
    · rfl
    · obtain ⟨_, _, _, _, _, _, _, hmem⟩ := (matrix_true_iff st s r).mp hval
      exact absurd hmem hr

/-- Witness for C8: the dangling covered ID "Rx" earns nobody credit. -/
theorem buildMatrix_shape_and_skips_witness :
    (buildCompletionMatrix exC8).val "Ann" "Rx" = false :=
  (buildMatrix_shape_and_skips exC8).2.2.2.2 "Ann" "Rx" (by decide)

/-- C9: with two meetings sharing a date, the date→coverage lookup holds
the covered list of the last such meeting in catalog order, and attendees
of that date are credited from that last meeting only. -/
theorem duplicateDates_lastWriteWins (st : TrackerState) (l1 l2 : List Meeting) (m : Meeting)
    (hsplit : st.meetings = l1 ++ m :: l2)
    (hlast : ∀ mt ∈ l2, mt.date ≠ m.date)
    (hdup : ∃ mt ∈ l1, mt.date = m.date)
    (s r : String) (hs : s ∈ st.roster)
    (hatt : (⟨m.date, s⟩ : AttendanceRecord) ∈ st.attendance)
    (honly : ∀ rec ∈ st.attendance, rec.scout = s → rec.date = m.date) :
    buildLookup st.meetings m.date = some m.reqIdsCovered ∧
      ((buildCompletionMatrix st).val s r = true ↔
        r ∈ m.reqIdsCovered ∧ r ∈ reqIds st.catalog) := by
  have hlook : buildLookup st.meetings m.date = some m.reqIdsCovered := by
    rw [hsplit]
    exact buildLookup_last l1 l2 m hlast
  refine ⟨hlook, ?_⟩
  rw [matrix_true_iff]
  constructor
  · rintro ⟨rec, hrec, hscout, _, cov, hcov, hrcov, hrid⟩
    rw [honly rec hrec hscout, hlook] at hcov
    obtain rfl : m.reqIdsCovered = cov := by injection hcov
    exact ⟨hrcov, hrid⟩
  · rintro ⟨hrcov, hrid⟩
    exact ⟨⟨m.date, s⟩, hatt, rfl, hs, m.reqIdsCovered, hlook, hrcov, hrid⟩

/-- Witness for C9: with meetings m1, m2 both dated "d", the lookup holds
m2's coverage and Ann's credit is decided by m2 alone. -/
theorem duplicateDates_lastWriteWins_witness :
    buildLookup exC9.meetings "d" = some ["R2"] ∧
      ((buildCompletionMatrix exC9).val "Ann" "R2" = true ↔
        "R2" ∈ (["R2"] : List String) ∧ "R2" ∈ reqIds exC9.catalog) :=
  duplicateDates_lastWriteWins exC9 [⟨"d", "m1", ["R1"], false⟩] []
    ⟨"d", "m2", ["R2"], false⟩ rfl (by decide) (by decide) "Ann" "R2" (by decide)
    (by decide) (by decide)

/-- C10: for a roster scout and a catalog requirement ID, the per-scout
progress maps built by the individual report and by the PDF progress report
both agree with that scout's row of the den-wide completion matrix. -/
theorem perScoutProgress_refines_matrix (st : TrackerState) (s r : String)
    (hs : s ∈ st.roster) (hr : r ∈ reqIds st.catalog) :
    scoutProgress st s r = (buildCompletionMatrix st).val s r ∧
      scoutProgressPdf st s r = (buildCompletionMatrix st).val s r := by
  have h1 : (∃ rec ∈ st.attendance, rec.scout = s ∧
        ∃ cov, buildLookup st.meetings rec.date = some cov ∧ r ∈ cov ∧
          r ∈ reqIds st.catalog) ↔
      (∃ rec ∈ st.attendance, rec.scout = s ∧ s ∈ st.roster ∧
        ∃ cov, buildLookup st.meetings rec.date = some cov ∧ r ∈ cov ∧
          r ∈ reqIds st.catalog) := by
    constructor
    · rintro ⟨rec, hrec, hsc, hrest⟩
      exact ⟨rec, hrec, hsc, hs, hrest⟩
    · rintro ⟨rec, hrec, hsc, _, hrest⟩
      exact ⟨rec, hrec, hsc, hrest⟩
  constructor
  · rw [Bool.eq_iff_iff, scoutProgress_true_iff, matrix_true_iff]
    exact h1
  · rw [Bool.eq_iff_iff, scoutProgressPdf_true_iff, matrix_true_iff]
    exact h1

/-- Witness for C10 at a concrete den, requirement R1 for Ann. -/
theorem perScoutProgress_refines_matrix_witness :
    scoutProgress exC10 "Ann" "R1" = (buildCompletionMatrix exC10).val "Ann" "R1" ∧
      scoutProgressPdf exC10 "Ann" "R1" = (buildCompletionMatrix exC10).val "Ann" "R1" :=
  perScoutProgress_refines_matrix exC10 "Ann" "R1" (by decide) (by decide)

/-- C2: a scout S attended M1 (covering R1, R2) and M2 (covering R2, R3)
and nothing else; after removing S's attendance at M1 and rebuilding, R2
stays true (still covered by M2) while R1 is false; after also removing
S's attendance at M2, R2 is false. -/
theorem multiSource_removal (st : TrackerState) (S d1 d2 t1 t2 R1 R2 R3 : String)
    (o1 o2 : Bool)
    (hm1 : (⟨d1, t1, [R1, R2], o1⟩ : Meeting) ∈ st.meetings)
    (hm2 : (⟨d2, t2, [R2, R3], o2⟩ : Meeting) ∈ st.meetings)
    (hdates : (st.meetings.map Meeting.date).Nodup)
    (hS : S ∈ st.roster) (hR1 : R1 ∈ reqIds st.catalog) (hR2 : R2 ∈ reqIds st.catalog)
    (hd12 : d1 ≠ d2) (hR12 : R1 ≠ R2) (hR13 : R1 ≠ R3)
    (hA2 : (⟨d2, S⟩ : AttendanceRecord) ∈ st.attendance)
    (honly : ∀ rec ∈ st.attendance, rec.scout = S → rec.date = d1 ∨ rec.date = d2) :
    (buildCompletionMatrix (removeAttendance st d1 S)).val S R2 = true ∧
    (buildCompletionMatrix (removeAttendance st d1 S)).val S R1 = false ∧
    (buildCompletionMatrix
      (removeAttendance (removeAttendance st d1 S) d2 S)).val S R2 = false := by
  have hlook2 : buildLookup st.meetings d2 = some [R2, R3] :=
    buildLookup_of_nodup hdates hm2
  refine ⟨?_, ?_, ?_⟩
  · rw [matrix_true_iff]
    refine ⟨⟨d2, S⟩, ?_, rfl, hS, [R2, R3], hlook2, by simp, hR2⟩
    exact List.mem_filter.mpr ⟨hA2, by simp [Ne.symm hd12]⟩
  · cases hval : (buildCompletionMatrix (removeAttendance st d1 S)).val S R1
    · rfl
    · exfalso
      obtain ⟨rec, hrec, hscout, _, cov, hcov, hrcov, _⟩ :=
        (matrix_true_iff (removeAttendance st d1 S) S R1).mp hval
      obtain ⟨hmem, hpred⟩ := List.mem_filter.mp hrec
      rcases honly rec hmem hscout with hdd | hdd
      · rw [hdd, hscout] at hpred
        simp at hpred
      · rw [hdd] at hcov
        rw [show (removeAttendance st d1 S).meetings = st.meetings from rfl, hlook2] at hcov
        obtain rfl : [R2, R3] = cov := by injection hcov
        simp only [List.mem_cons, List.not_mem_nil, or_false] at hrcov
        rcases hrcov with h | h
        · exact hR12 h
        · exact hR13 h
  · cases hval : (buildCompletionMatrix
        (removeAttendance (removeAttendance st d1 S) d2 S)).val S R2
    · rfl
    · exfalso
      obtain ⟨rec, hrec, hscout, _, _, _, _, _⟩ :=
        (matrix_true_iff _ S R2).mp hval
      obtain ⟨hrec1, hpred2⟩ := List.mem_filter.mp hrec
      obtain ⟨hmem, hpred1⟩ := List.mem_filter.mp hrec1
      rcases honly rec hmem hscout with hdd | hdd
      · rw [hdd, hscout] at hpred1
        simp at hpred1
      · rw [hdd, hscout] at hpred2
        simp at hpred2

/-- Witness for C2 at the concrete two-meeting scenario. -/
theorem multiSource_removal_witness :
    (buildCompletionMatrix (removeAttendance exC2 "d1" "S")).val "S" "R2" = true ∧
    (buildCompletionMatrix (removeAttendance exC2 "d1" "S")).val "S" "R1" = false ∧
    (buildCompletionMatrix
      (removeAttendance (removeAttendance exC2 "d1" "S") "d2" "S")).val "S" "R2" = false :=
  multiSource_removal exC2 "S" "d1" "d2" "M1" "M2" "R1" "R2" "R3" false false
    (by decide) (by decide) (by decide) (by decide) (by decide) (by decide)
    (by decide) (by decide) (by decide) (by decide) (by decide)

/-- C3: `all_required_complete` holds exactly when every adventure with a
`Required=True` requirement rolls up to 100 for the scout;
`completed_electives` counts, without upper bound, the elective-tagged
adventures at a 100 rollup; and the rank is earned exactly when both the
required condition holds and at least 2 electives are complete. -/
theorem rankEligibility_rule (mat : String → String → Bool) (catalog : List Requirement)
    (scout : String) :
    (allRequiredComplete mat catalog scout = true ↔
      ∀ adv ∈ requiredAdventures catalog,
        (adventureProgress mat catalog scout adv).2.2 = 100) ∧
    completedElectives mat catalog scout =
      (electiveAdventures catalog).countP
        (fun adv => decide ((adventureProgress mat catalog scout adv).2.2 = 100)) ∧
    (lionRankEarned mat catalog scout = true ↔
      allRequiredComplete mat catalog scout = true ∧
        2 ≤ completedElectives mat catalog scout) := by
  refine ⟨?_, ?_, ?_⟩
  · rw [allRequiredComplete,
      foldl_clearFlag_eq_true (fun adv => (adventureProgress mat catalog scout adv).2.2 < 100)]
    simp only [true_and]
    constructor
    · intro h adv hadv
      exact (adventureProgress_pct_eq_100_iff mat catalog scout adv).mp (h adv hadv)
    · intro h adv hadv
      exact (adventureProgress_pct_eq_100_iff mat catalog scout adv).mpr (h adv hadv)
  · rw [completedElectives,
      foldl_countIf_eq (fun adv => (adventureProgress mat catalog scout adv).2.2 = 100),
      Nat.zero_add]
  · rw [lionRankEarned, Bool.and_eq_true, decide_eq_true_iff]

/-- C4: the rollup percentage is `completed/total*100` with a zero guard
returning 0 when the total is 0, and the den-wide coverage percentage over
the roster has the same guard. -/
theorem percentage_zero_guard (mat : String → String → Bool) (catalog : List Requirement)
    (scout adv rid : String) (scouts : List String) :
    ((adventureProgress mat catalog scout adv).2.1 = 0 →
      (adventureProgress mat catalog scout adv).2.2 = 0) ∧
    (0 < (adventureProgress mat catalog scout adv).2.1 →
      (adventureProgress mat catalog scout adv).2.2 =
        ((adventureProgress mat catalog scout adv).1 : ℚ) /
          ((adventureProgress mat catalog scout adv).2.1 : ℚ) * 100) ∧
    (scouts.length = 0 → denCoveragePct mat scouts rid = 0) ∧
    (0 < scouts.length → denCoveragePct mat scouts rid =
      (completedCount mat scouts rid : ℚ) / (scouts.length : ℚ) * 100) := by
  refine ⟨?_, ?_, ?_, ?_⟩
  · intro h
    rw [adventureProgress_eq] at h ⊢
    simp only [] at h ⊢
    rw [if_neg (by omega)]
  · intro h
    rw [adventureProgress_eq] at h ⊢
    simp only [] at h ⊢
    rw [if_pos h]
  · intro h
    rw [denCoveragePct, if_neg (by omega)]
  · intro h
    rw [denCoveragePct, if_pos h]

/-- Witness for C4: an adventure absent from the catalog has 0 requirements
and reports percentage 0; a non-empty roster uses the ratio formula. -/
theorem percentage_zero_guard_witness :
    (adventureProgress (buildCompletionMatrix exC1).val exC1.catalog "Ann" "Nope").2.2 = 0 ∧
    denCoveragePct (buildCompletionMatrix exC1).val exC1.roster "R1" =
      ((completedCount (buildCompletionMatrix exC1).val exC1.roster "R1" : ℚ) /
        (exC1.roster.length : ℚ)) * 100 :=
  ⟨(percentage_zero_guard (buildCompletionMatrix exC1).val exC1.catalog "Ann" "Nope" "R1"
      exC1.roster).1 (by decide),
   (percentage_zero_guard (buildCompletionMatrix exC1).val exC1.catalog "Ann" "Nope" "R1"
      exC1.roster).2.2.2 (by decide)⟩

/-- C7: for every required requirement, the completed scouts and
`scouts_missing` partition the roster, and the completed count plus the
missing count is the roster size. -/
theorem planning_partition (st : TrackerState) (q : Requirement)
    (hq : q ∈ st.catalog) (hreq : q.required = true) :
    (∀ s, s ∈ st.roster ↔
      s ∈ scoutsCompleted (buildCompletionMatrix st).val st.roster q.reqId ∨
        s ∈ scoutsMissing (buildCompletionMatrix st).val st.roster q.reqId) ∧
    (∀ s, ¬ (s ∈ scoutsCompleted (buildCompletionMatrix st).val st.roster q.reqId ∧
      s ∈ scoutsMissing (buildCompletionMatrix st).val st.roster q.reqId)) ∧
    completedCount (buildCompletionMatrix st).val st.roster q.reqId +
      (scoutsMissing (buildCompletionMatrix st).val st.roster q.reqId).length =
      st.roster.length := by
  refine ⟨?_, ?_, ?_⟩
  · intro s
    rw [scoutsCompleted, scoutsMissing, List.mem_filter, List.mem_filter]
    cases h : (buildCompletionMatrix st).val s q.reqId <;> simp [h]
  · intro s
    rw [scoutsCompleted, scoutsMissing, List.mem_filter, List.mem_filter]
    rintro ⟨⟨_, h1⟩, ⟨_, h2⟩⟩
    rw [h1] at h2
    simp at h2
  · rw [completedCount, scoutsMissing]
    exact countP_add_length_filter_not st.roster
      (fun s => (buildCompletionMatrix st).val s q.reqId)

/-- Witness for C7 at the four-scout den and its required requirement. -/
theorem planning_partition_witness :
    completedCount (buildCompletionMatrix exC7).val exC7.roster "R1" +
      (scoutsMissing (buildCompletionMatrix exC7).val exC7.roster "R1").length =
      exC7.roster.length :=
  (planning_partition exC7 ⟨"R1", "A", "r", true⟩ (by decide) (by decide)).2.2

/-- C5 counterexample: at `exC5`, Sam missed meeting m1 (covering R1) but
completed R1 at meeting m2; the claim says a listed missed meeting is
paired with exactly its still-incomplete covered requirements, yet the
report pairs m1 with R1, which is not incomplete. -/
theorem missedMeetings_counterexample :
    ¬ (∀ mm ∈ missedMeetingsInfo exC5 "Sam", ∀ q ∈ mm.requirements,
        scoutProgressPdf exC5 "Sam" q.reqId = false) := by
  decide

/-- C5 amended: under unique meeting dates, `missed_meetings_info` lists
exactly the non-optional meetings the scout did not attend that cover at
least one catalog-known requirement; each is paired with all its
catalog-known covered requirements — not only the incomplete ones — each
flagged `completed_elsewhere` exactly when the scout earned it at another
meeting.  Optional meetings never appear. -/
theorem missedMeetings_amended (st : TrackerState) (scout : String)
    (hdates : (st.meetings.map Meeting.date).Nodup) :
    (∀ mm ∈ missedMeetingsInfo st scout,
      ∃ m ∈ st.meetings, m.date = mm.date ∧ m.optional = false ∧
        (∀ rec ∈ st.attendance, rec.scout = scout → rec.date ≠ m.date) ∧
        mm.title = m.title ∧
        mm.requirements =
          reqsCoveredAt st.catalog (scoutProgressPdf st scout) m.reqIdsCovered ∧
        mm.requirements ≠ []) ∧
    (∀ m ∈ st.meetings, m.optional = false →
      (∀ rec ∈ st.attendance, rec.scout = scout → rec.date ≠ m.date) →
      reqsCoveredAt st.catalog (scoutProgressPdf st scout) m.reqIdsCovered ≠ [] →
      ∃ mm ∈ missedMeetingsInfo st scout, mm.date = m.date ∧
        mm.requirements =
          reqsCoveredAt st.catalog (scoutProgressPdf st scout) m.reqIdsCovered) ∧
    (∀ mm ∈ missedMeetingsInfo st scout, ∀ q ∈ mm.requirements,
      q.completedElsewhere = scoutProgressPdf st scout q.reqId) := by
  refine ⟨?_, ?_, ?_⟩
  · intro mm hmm
    obtain ⟨d, hd, m, hfl, hne, rfl⟩ := mem_missedMeetingsInfo.mp hmm
    obtain ⟨hmmem, hmdate⟩ := findLastMeeting_mem hfl
    obtain ⟨⟨mo, hmo, hopt, hdmo⟩, hnot⟩ := mem_missedMeetingDates.mp hd
    obtain rfl : mo = m := meeting_eq_of_date_eq hdates hmo hmmem (by rw [hdmo, hmdate])
    refine ⟨mo, hmmem, hmdate, hopt, ?_, rfl, rfl, hne⟩
    intro rec hrec hsc hdd
    exact hnot ⟨rec, hrec, hsc, by rw [hdd, hmdate]⟩
  · intro m hm hopt hnoatt hne
    have hd : m.date ∈ missedMeetingDates st scout := by
      refine mem_missedMeetingDates.mpr ⟨⟨m, hm, hopt, rfl⟩, ?_⟩
      rintro ⟨rec, hrec, hsc, hdd⟩
      exact hnoatt rec hrec hsc hdd
    exact ⟨⟨m.date, m.title,
        reqsCoveredAt st.catalog (scoutProgressPdf st scout) m.reqIdsCovered⟩,
      mem_missedMeetingsInfo.mpr
        ⟨m.date, hd, m, findLastMeeting_of_nodup hdates hm, hne, rfl⟩,
      rfl, rfl⟩
  · intro mm hmm q hq
    obtain ⟨d, hd, m, hfl, hne, rfl⟩ := mem_missedMeetingsInfo.mp hmm
    exact (mem_reqsCoveredAt hq).1

/-- Witness for the amended C5 at `exC5`: the report's entry for R1 carries
`completed_elsewhere = true` because Sam earned R1 at meeting m2. -/
theorem missedMeetings_amended_witness :
    (⟨"R1", true, true⟩ : CoveredReqInfo).completedElsewhere =
      scoutProgressPdf exC5 "Sam" "R1" :=
  (missedMeetings_amended exC5 "Sam" (by decide)).2.2
    ⟨"d1", "m1", [⟨"R1", true, true⟩]⟩ (by decide) ⟨"R1", true, true⟩ (by decide)

end ScoutTracker
